import Mathlib

/-!
Verification development for `examples/contrib/mitmproxywrapper.py`.

The script manages the macOS per-service web-proxy configuration around a
wrapped proxy process.  We shallow-embed it at two levels:

* a text-parsing level for `proxy_state_for_service` /
  `proxy_enabled_for_service` / `connected_service_names`, modelling the
  regex-based parsing of `networksetup` / `scutil` output exactly, with
  Python exceptions (`IndexError`, `KeyError`, `ValueError`) as `Except`
  errors;

* a state-transition level for `enable_proxy_for_service`,
  `disable_proxy_for_service`, `toggle_proxy` and the `wrap_proxy`
  context manager, where the OS proxy database is a map from service
  names to a pair of proxy records (plain web proxy and secure web
  proxy), and every issued `networksetup -set…` command is recorded in a
  trace.
-/

namespace MitmWrapper

/-! ### Text-parsing layer -/

/-- Anchored match of the Python regex `([^:]+): (.*)` at the start of the
character list: a nonempty run of non-colon characters, then a colon and a
space, then the (greedy) rest of the line.  Backtracking inside the run can
never help, because a shorter key would have to be followed by a colon at a
position known to hold a non-colon character. -/
def matchKeyValueAt (cs : List Char) : Option (List Char × List Char) :=
  let key := cs.takeWhile (fun c => c ≠ ':')
  if key.isEmpty then none
  else
    match cs.drop key.length with
    | ':' :: ' ' :: rest => some (key, rest)
    | _ => none

/-- First match of `([^:]+): (.*)` in the line, scanning start positions left
to right, as `re.findall(...)[0]` does (a match always extends to the end of
the line, so the first match is the only one). -/
def findKeyValue : List Char → Option (List Char × List Char)
  | [] => none
  | c :: rest =>
    match matchKeyValueAt (c :: rest) with
    | some r => some r
    | none => findKeyValue rest

/-- Python exceptions raised by the parsing code of the wrapper. -/
inductive PErr where
  /-- `re.findall(...)[0]` on a line with no match raises `IndexError`. -/
  | indexError
  /-- `dict[...]` on a missing key raises `KeyError`. -/
  | keyError
deriving DecidableEq, Repr

/-- `Wrapper.proxy_state_for_service`: split output is parsed line by line
with `re.findall(r"([^:]+): (.*)", line)[0]`; the first line with no match
aborts the comprehension with `IndexError`. -/
def proxy_state_for_service : List (List Char) → Except PErr (List (List Char × List Char))
  | [] => .ok []
  | line :: rest =>
    match findKeyValue line with
    | none => .error .indexError
    | some kv =>
      match proxy_state_for_service rest with
      | .error e => .error e
      | .ok kvs => .ok (kv :: kvs)

/-- Lookup in the `dict(...)` built from the parsed pairs; with duplicate
keys the Python dict keeps the last occurrence. -/
def dictLookup (kvs : List (List Char × List Char)) (k : List Char) : Option (List Char) :=
  match kvs.reverse.find? (fun p => p.1 == k) with
  | some p => some p.2
  | none => none

/-- `Wrapper.proxy_enabled_for_service`:
`self.proxy_state_for_service(service)["Enabled"] == "Yes"`.  A missing
`Enabled` key is a `KeyError`, not a default. -/
def proxy_enabled_for_service (output : List (List Char)) : Except PErr Bool :=
  match proxy_state_for_service output with
  | .error e => .error e
  | .ok kvs =>
    match dictLookup kvs ("Enabled".toList) with
    | none => .error .keyError
    | some v => .ok (v == "Yes".toList)

/-- `ValueError` raised by the tuple unpacking
`(service_name,) = re.findall(...)` when there is not exactly one match. -/
inductive JoinErr where
  | valueError
deriving DecidableEq, Repr

/-- The tuple unpacking `(service_name,) = matches`: succeeds only when the
match list has exactly one element. -/
def unpackSingleMatch : List String → Except JoinErr String
  | [x] => .ok x
  | _ => .error .valueError

/-- `Wrapper.connected_service_names`: for each service id found in the
`scutil` state listing, query that service's setup record and extract its
`UserDefinedName` matches; names are accumulated in order, and a resolution
with no (or several) matches raises `ValueError`, aborting the loop.
`userDefinedNameMatches` gives, per service id, the list of regex matches of
`UserDefinedName\s*:\s*(.+)` in the corresponding `scutil show` output. -/
def connected_service_names : List String → (String → List String) → Except JoinErr (List String)
  | [], _ => .ok []
  | id :: rest, f =>
    match unpackSingleMatch (f id) with
    | .error e => .error e
    | .ok name =>
      match connected_service_names rest f with
      | .error e => .error e
      | .ok names => .ok (name :: names)

/-! ### Command / state layer -/

/-- A `networksetup -set…` command issued by the wrapper (mutations only;
`-getwebproxy` queries are modelled as state reads). -/
inductive Cmd where
  /-- `networksetup -setwebproxy service host port` -/
  | setwebproxy (service : String) (host : String) (port : Nat)
  /-- `networksetup -setsecurewebproxy service host port` -/
  | setsecurewebproxy (service : String) (host : String) (port : Nat)
  /-- `networksetup -setwebproxystate service Off` -/
  | setwebproxystate (service : String)
  /-- `networksetup -setsecurewebproxystate service Off` -/
  | setsecurewebproxystate (service : String)
deriving DecidableEq, Repr

/-- The service an issued command mutates. -/
def cmdService : Cmd → String
  | .setwebproxy s _ _ => s
  | .setsecurewebproxy s _ _ => s
  | .setwebproxystate s => s
  | .setsecurewebproxystate s => s

/-- One proxy record of a service (what `-getwebproxy` reports): enablement
flag plus target host and port. -/
structure ProxyRec where
  enabled : Bool
  host : String
  port : Nat
deriving DecidableEq, Repr

/-- Per-service OS proxy state: the plain web proxy and the secure (TLS)
web proxy records. -/
structure SvcProxyState where
  web : ProxyRec
  secure : ProxyRec
deriving DecidableEq, Repr

/-- The OS proxy database: per-service proxy state, keyed by service name. -/
abbrev OSState := String → SvcProxyState

/-- Pointwise update of one service's record. -/
def updateSvc (σ : OSState) (name : String) (v : SvcProxyState) : OSState :=
  fun n => if n = name then v else σ n

/-- The record written by `-setwebproxy service 127.0.0.1 port`. -/
def proxyTarget (port : Nat) : ProxyRec :=
  { enabled := true, host := "127.0.0.1", port := port }

/-- `Wrapper.enable_proxy_for_service` (state level, both commands succeed):
`-setwebproxy` and `-setsecurewebproxy` both point the service at
`127.0.0.1:port` and enable it; the two issued commands are returned as the
trace. -/
def enable_proxy_for_service (port : Nat) (σ : OSState) (s : String) : OSState × List Cmd :=
  (updateSvc σ s ⟨proxyTarget port, proxyTarget port⟩,
    [Cmd.setwebproxy s "127.0.0.1" port, Cmd.setsecurewebproxy s "127.0.0.1" port])

/-- A service record after `-setwebproxystate Off` and
`-setsecurewebproxystate Off`: both enablement flags cleared, target
host/port untouched. -/
def svcDisable (v : SvcProxyState) : SvcProxyState :=
  ⟨⟨false, v.web.host, v.web.port⟩, ⟨false, v.secure.host, v.secure.port⟩⟩

/-- `Wrapper.disable_proxy_for_service` (state level, both commands
succeed). -/
def disable_proxy_for_service (σ : OSState) (s : String) : OSState × List Cmd :=
  (updateSvc σ s (svcDisable (σ s)),
    [Cmd.setwebproxystate s, Cmd.setsecurewebproxystate s])

/-- `Wrapper.proxy_enabled_for_service` at the state level: the `Enabled`
field of the plain web proxy (`-getwebproxy`) record. -/
def webEnabled (σ : OSState) (s : String) : Bool :=
  (σ s).web.enabled

/-- The loop body of `Wrapper.toggle_proxy`, with `new_state` fixed up
front: per connected service, disable it if it is enabled and the target is
off, enable it if it is disabled and the target is on, otherwise leave it
untouched. -/
def toggleLoop (port : Nat) (newState : Bool) : List String → OSState → OSState × List Cmd
  | [], σ => (σ, [])
  | s :: rest, σ =>
    if webEnabled σ s && !newState then
      let p := toggleLoop port newState rest (disable_proxy_for_service σ s).1
      (p.1, (disable_proxy_for_service σ s).2 ++ p.2)
    else if !(webEnabled σ s) && newState then
      let p := toggleLoop port newState rest (enable_proxy_for_service port σ s).1
      (p.1, (enable_proxy_for_service port σ s).2 ++ p.2)
    else
      toggleLoop port newState rest σ

/-- `Wrapper.toggle_proxy`: the target state is the negation of the primary
service's current enablement; then every connected service is brought to
the target state, read-before-write. -/
def toggle_proxy (port : Nat) (connected : List String) (primary : String) (σ : OSState) :
    OSState × List Cmd :=
  toggleLoop port (!(webEnabled σ primary)) connected σ

/-- The entry loop of `Wrapper.wrap_proxy`: enable every connected service
that is not already enabled. -/
def entryPhase (port : Nat) : List String → OSState → OSState × List Cmd
  | [], σ => (σ, [])
  | s :: rest, σ =>
    if webEnabled σ s then entryPhase port rest σ
    else
      let p := entryPhase port rest (enable_proxy_for_service port σ s).1
      (p.1, (enable_proxy_for_service port σ s).2 ++ p.2)

/-- The exit loop of `Wrapper.wrap_proxy`: disable every connected service
that is currently (re-queried) enabled. -/
def exitPhase : List String → OSState → OSState × List Cmd
  | [], σ => (σ, [])
  | s :: rest, σ =>
    if webEnabled σ s then
      let p := exitPhase rest (disable_proxy_for_service σ s).1
      (p.1, (disable_proxy_for_service σ s).2 ++ p.2)
    else exitPhase rest σ

/-- Result of one run of the `wrap_proxy` context manager: the final OS
state, the commands issued by the entry and exit loops, and the error (if
any) propagated from the guarded block. -/
structure WrapResult where
  finalState : OSState
  entryTrace : List Cmd
  exitTrace : List Cmd
  err : Option String

/-- `Wrapper.wrap_proxy` as a `@contextlib.contextmanager`: run the entry
loop, run the guarded block, and — only when the guarded block finishes
without an exception — run the exit loop.  The `yield` in the source is not
wrapped in `try`/`finally`, so an exception thrown into the generator
propagates immediately and the exit loop is skipped. -/
def wrap_proxy (port : Nat) (connected : List String)
    (guarded : OSState → OSState × Option String) (σ : OSState) : WrapResult :=
  let e := entryPhase port connected σ
  let g := guarded e.1
  match g.2 with
  | some msg => ⟨g.1, e.2, [], some msg⟩
  | none =>
    let x := exitPhase connected g.1
    ⟨x.1, e.2, x.2, none⟩

/-- The services of the `-setwebproxy` (enable) commands in a trace. -/
def enabledServices (tr : List Cmd) : List String :=
  tr.filterMap (fun c =>
    match c with
    | .setwebproxy s _ _ => some s
    | _ => none)

/-- The services of the `-setwebproxystate Off` (disable) commands in a
trace. -/
def disabledServices (tr : List Cmd) : List String :=
  tr.filterMap (fun c =>
    match c with
    | .setwebproxystate s => some s
    | _ => none)

/-! ### Command-execution layer (fallible executor) -/

/-- Run a command sequence under a fallible executor, as the `for` loops of
`enable_proxy_for_service` / `disable_proxy_for_service` do:
`subprocess.check_output` raises on failure, so a failing command aborts the
loop; the returned list records the commands actually attempted, and the
flag records whether the whole sequence succeeded. -/
def runCmds (exec : Cmd → Bool) : List Cmd → List Cmd × Bool
  | [] => ([], true)
  | c :: rest =>
    if exec c then
      let p := runCmds exec rest
      (c :: p.1, p.2)
    else ([c], false)

/-- The two commands issued by `Wrapper.enable_proxy_for_service`, in
source order. -/
def enableCmdSequence (port : Nat) (s : String) : List Cmd :=
  [Cmd.setwebproxy s "127.0.0.1" port, Cmd.setsecurewebproxy s "127.0.0.1" port]

/-- The two commands issued by `Wrapper.disable_proxy_for_service`, in
source order. -/
def disableCmdSequence (s : String) : List Cmd :=
  [Cmd.setwebproxystate s, Cmd.setsecurewebproxystate s]

/-- `Wrapper.enable_proxy_for_service` under a fallible executor. -/
def enable_proxy_attempt (exec : Cmd → Bool) (port : Nat) (s : String) : List Cmd × Bool :=
  runCmds exec (enableCmdSequence port s)

/-- `Wrapper.disable_proxy_for_service` under a fallible executor. -/
def disable_proxy_attempt (exec : Cmd → Bool) (s : String) : List Cmd × Bool :=
  runCmds exec (disableCmdSequence s)


theorem updateSvc_same (σ : OSState) (s : String) (v : SvcProxyState) :
    updateSvc σ s v s = v := by
  simp [updateSvc]

theorem updateSvc_other (σ : OSState) (s n : String) (v : SvcProxyState) (h : n ≠ s) :
    updateSvc σ s v n = σ n := by
  simp [updateSvc, h]

theorem entryPhase_state (port : Nat) (l : List String) (σ : OSState) (s : String) :
    (entryPhase port l σ).1 s =
      if s ∈ l ∧ (σ s).web.enabled = false then
        SvcProxyState.mk (proxyTarget port) (proxyTarget port)
      else σ s := by
  induction l generalizing σ with
  | nil => simp [entryPhase]
  | cons a rest ih =>
    by_cases ha : (σ a).web.enabled = true
    · have h1 : entryPhase port (a :: rest) σ = entryPhase port rest σ := by
        simp [entryPhase, webEnabled, ha]
      rw [h1, ih]
      by_cases hs : s = a
      · subst hs
        simp [ha]
      · simp [List.mem_cons, hs]
    · have hb : (σ a).web.enabled = false := by simpa using ha
      have h1 : (entryPhase port (a :: rest) σ).1
          = (entryPhase port rest (enable_proxy_for_service port σ a).1).1 := by
        simp [entryPhase, webEnabled, hb]
      rw [h1, ih]
      by_cases hs : s = a
      · subst hs
        simp [enable_proxy_for_service, updateSvc, hb, proxyTarget]
      · have hupd : (enable_proxy_for_service port σ a).1 s = σ s := by
          simp [enable_proxy_for_service, updateSvc, hs]
        rw [hupd]
        simp [List.mem_cons, hs]

theorem exitPhase_state (l : List String) (σ : OSState) (s : String) :
    (exitPhase l σ).1 s =
      if s ∈ l ∧ (σ s).web.enabled = true then svcDisable (σ s) else σ s := by
  induction l generalizing σ with
  | nil => simp [exitPhase]
  | cons a rest ih =>
    by_cases ha : (σ a).web.enabled = true
    · have h1 : (exitPhase (a :: rest) σ).1
          = (exitPhase rest (disable_proxy_for_service σ a).1).1 := by
        simp [exitPhase, webEnabled, ha]
      rw [h1, ih]
      by_cases hs : s = a
      · subst hs
        simp [disable_proxy_for_service, updateSvc, svcDisable, ha]
      · have hupd : (disable_proxy_for_service σ a).1 s = σ s := by
          simp [disable_proxy_for_service, updateSvc, hs]
        rw [hupd]
        simp [List.mem_cons, hs]
    · have hb : (σ a).web.enabled = false := by simpa using ha
      have h1 : exitPhase (a :: rest) σ = exitPhase rest σ := by
        simp [exitPhase, webEnabled, hb]
      rw [h1, ih]
      by_cases hs : s = a
      · subst hs
        simp [hb]
      · simp [List.mem_cons, hs]



theorem toggleLoop_state (port : Nat) (ns : Bool) (l : List String) (σ : OSState) (s : String) :
    (toggleLoop port ns l σ).1 s =
      if s ∈ l ∧ ¬((σ s).web.enabled = ns) then
        (if ns then SvcProxyState.mk (proxyTarget port) (proxyTarget port)
         else svcDisable (σ s))
      else σ s := by
  induction l generalizing σ with
  | nil => simp [toggleLoop]
  | cons a rest ih =>
    cases ns with
    | false =>
      by_cases ha : (σ a).web.enabled = true
      · have h1 : (toggleLoop port false (a :: rest) σ).1
            = (toggleLoop port false rest (disable_proxy_for_service σ a).1).1 := by
          simp [toggleLoop, webEnabled, ha]
        rw [h1, ih]
        by_cases hs : s = a
        · subst hs
          simp [disable_proxy_for_service, updateSvc, svcDisable, ha]
        · have hupd : (disable_proxy_for_service σ a).1 s = σ s := by
            simp [disable_proxy_for_service, updateSvc, hs]
          rw [hupd]
          simp [List.mem_cons, hs]
      · have hb : (σ a).web.enabled = false := by simpa using ha
        have h1 : toggleLoop port false (a :: rest) σ = toggleLoop port false rest σ := by
          simp [toggleLoop, webEnabled, hb]
        rw [h1, ih]
        by_cases hs : s = a
        · subst hs
          simp [hb]
        · simp [List.mem_cons, hs]
    | true =>
      by_cases ha : (σ a).web.enabled = true
      · have h1 : toggleLoop port true (a :: rest) σ = toggleLoop port true rest σ := by
          simp [toggleLoop, webEnabled, ha]
        rw [h1, ih]
        by_cases hs : s = a
        · subst hs
          simp [ha]
        · simp [List.mem_cons, hs]
      · have hb : (σ a).web.enabled = false := by simpa using ha
        have h1 : (toggleLoop port true (a :: rest) σ).1
            = (toggleLoop port true rest (enable_proxy_for_service port σ a).1).1 := by
          simp [toggleLoop, webEnabled, hb]
        rw [h1, ih]
        by_cases hs : s = a
        · subst hs
          simp [enable_proxy_for_service, updateSvc, hb, proxyTarget]
        · have hupd : (enable_proxy_for_service port σ a).1 s = σ s := by
            simp [enable_proxy_for_service, updateSvc, hs]
          rw [hupd]
          simp [List.mem_cons, hs]

theorem exitPhase_trace (l : List String) (σ : OSState) (s : String) :
    Cmd.setwebproxystate s ∈ (exitPhase l σ).2 ↔ (s ∈ l ∧ (σ s).web.enabled = true) := by
  induction l generalizing σ with
  | nil => simp [exitPhase]
  | cons a rest ih =>
    by_cases ha : (σ a).web.enabled = true
    · have h1 : (exitPhase (a :: rest) σ).2
          = (disable_proxy_for_service σ a).2 ++ (exitPhase rest (disable_proxy_for_service σ a).1).2 := by
        simp [exitPhase, webEnabled, ha]
      rw [h1]
      by_cases hs : s = a
      · subst hs
        simp [disable_proxy_for_service, ha]
      · have hupd : (disable_proxy_for_service σ a).1 s = σ s := by
          simp [disable_proxy_for_service, updateSvc, hs]
        have hni : Cmd.setwebproxystate s ∉ (disable_proxy_for_service σ a).2 := by
          simp [disable_proxy_for_service, hs]
        rw [List.mem_append]
        constructor
        · intro h
          rcases h with h | h
          · exact absurd h hni
          · have h2 := (ih ((disable_proxy_for_service σ a).1)).mp h
            rw [hupd] at h2
            exact ⟨List.mem_cons_of_mem _ h2.1, h2.2⟩
        · intro h
          have hm : s ∈ rest := by
            rcases List.mem_cons.mp h.1 with h3 | h3
            · exact absurd h3 hs
            · exact h3
          refine Or.inr ((ih ((disable_proxy_for_service σ a).1)).mpr ⟨hm, ?_⟩)
          rw [hupd]
          exact h.2
    · have hb : (σ a).web.enabled = false := by simpa using ha
      have h1 : exitPhase (a :: rest) σ = exitPhase rest σ := by
        simp [exitPhase, webEnabled, hb]
      rw [h1, ih]
      by_cases hs : s = a
      · subst hs
        simp [hb]
      · simp [List.mem_cons, hs]

theorem toggleLoop_trace (port : Nat) (ns : Bool) (l : List String) (σ : OSState) (s : String) :
    (∃ c ∈ (toggleLoop port ns l σ).2, cmdService c = s)
      ↔ (s ∈ l ∧ ¬((σ s).web.enabled = ns)) := by
  induction l generalizing σ with
  | nil => simp [toggleLoop]
  | cons a rest ih =>
    cases ns with
    | false =>
      by_cases ha : (σ a).web.enabled = true
      · have h1 : (toggleLoop port false (a :: rest) σ).2
            = (disable_proxy_for_service σ a).2
              ++ (toggleLoop port false rest (disable_proxy_for_service σ a).1).2 := by
          simp [toggleLoop, webEnabled, ha]
        rw [h1]
        by_cases hs : s = a
        · subst hs
          constructor
          · intro _
            exact ⟨List.mem_cons_self _ _, by simp [ha]⟩
          · intro _
            exact ⟨Cmd.setwebproxystate s, by simp [disable_proxy_for_service, cmdService]⟩
        · have hupd : (disable_proxy_for_service σ a).1 s = σ s := by
            simp [disable_proxy_for_service, updateSvc, hs]
          constructor
          · intro ⟨c, hc, hcs⟩
            rcases List.mem_append.mp hc with h | h
            · exfalso
              apply hs
              have h2 : cmdService c = a := by
                simp [disable_proxy_for_service] at h
                rcases h with h | h <;> subst h <;> simp [cmdService]
              rw [← hcs, h2]
            · have h2 := (ih ((disable_proxy_for_service σ a).1)).mp ⟨c, h, hcs⟩
              rw [hupd] at h2
              exact ⟨List.mem_cons_of_mem _ h2.1, h2.2⟩
          · intro ⟨hmem, hdis⟩
            have hmem' : s ∈ rest := by
              rcases List.mem_cons.mp hmem with h | h
              · exact absurd h hs
              · exact h
            obtain ⟨c, hc, hcs⟩ :=
              (ih ((disable_proxy_for_service σ a).1)).mpr ⟨hmem', by rw [hupd]; exact hdis⟩
            exact ⟨c, List.mem_append.mpr (Or.inr hc), hcs⟩
      · have hb : (σ a).web.enabled = false := by simpa using ha
        have h1 : toggleLoop port false (a :: rest) σ = toggleLoop port false rest σ := by
          simp [toggleLoop, webEnabled, hb]
        rw [h1, ih]
        by_cases hs : s = a
        · subst hs
          simp [hb]
        · simp [List.mem_cons, hs]
    | true =>
      by_cases ha : (σ a).web.enabled = true
      · have h1 : toggleLoop port true (a :: rest) σ = toggleLoop port true rest σ := by
          simp [toggleLoop, webEnabled, ha]
        rw [h1, ih]
        by_cases hs : s = a
        · subst hs
          simp [ha]
        · simp [List.mem_cons, hs]
      · have hb : (σ a).web.enabled = false := by simpa using ha
        have h1 : (toggleLoop port true (a :: rest) σ).2
            = (enable_proxy_for_service port σ a).2
              ++ (toggleLoop port true rest (enable_proxy_for_service port σ a).1).2 := by
          simp [toggleLoop, webEnabled, hb]
        rw [h1]
        by_cases hs : s = a
        · subst hs
          constructor
          · intro _
            exact ⟨List.mem_cons_self _ _, by simp [hb]⟩
          · intro _
            exact ⟨Cmd.setwebproxy s "127.0.0.1" port,
              by simp [enable_proxy_for_service, cmdService]⟩
        · have hupd : (enable_proxy_for_service port σ a).1 s = σ s := by
            simp [enable_proxy_for_service, updateSvc, hs]
          constructor
          · intro ⟨c, hc, hcs⟩
            rcases List.mem_append.mp hc with h | h
            · exfalso
              apply hs
              have h2 : cmdService c = a := by
                simp [enable_proxy_for_service] at h
                rcases h with h | h <;> subst h <;> simp [cmdService]
              rw [← hcs, h2]
            · have h2 := (ih ((enable_proxy_for_service port σ a).1)).mp ⟨c, h, hcs⟩
              rw [hupd] at h2
              exact ⟨List.mem_cons_of_mem _ h2.1, h2.2⟩
          · intro ⟨hmem, hdis⟩
            have hmem' : s ∈ rest := by
              rcases List.mem_cons.mp hmem with h | h
              · exact absurd h hs
              · exact h
            obtain ⟨c, hc, hcs⟩ :=
              (ih ((enable_proxy_for_service port σ a).1)).mpr ⟨hmem', by rw [hupd]; exact hdis⟩
            exact ⟨c, List.mem_append.mpr (Or.inr hc), hcs⟩



/-! ### Claim C1 -/

/-- C1 (code defect): at a concrete failing input — a guarded block that
raises — `wrap_proxy` propagates the error but skips the exit phase
entirely: no exit command is issued and the service enabled by the entry
phase is left enabled.  The `yield` in the source is not wrapped in
`try`/`finally`, so the exit-phase cleanup does not run when the guarded
workload fails, contrary to the claim that cleanup always runs to
completion before the error is returned. -/
theorem C1_wrap_proxy_skips_cleanup_on_error :
    (wrap_proxy 8080 ["Wi-Fi"] (fun σ => (σ, some "boom"))
        (fun _ => ⟨⟨false, "", 0⟩, ⟨false, "", 0⟩⟩)).err = some "boom"
    ∧ (wrap_proxy 8080 ["Wi-Fi"] (fun σ => (σ, some "boom"))
        (fun _ => ⟨⟨false, "", 0⟩, ⟨false, "", 0⟩⟩)).exitTrace = []
    ∧ ((wrap_proxy 8080 ["Wi-Fi"] (fun σ => (σ, some "boom"))
        (fun _ => ⟨⟨false, "", 0⟩, ⟨false, "", 0⟩⟩)).finalState "Wi-Fi").web.enabled = true := by
  refine ⟨rfl, rfl, by decide⟩

/-! ### Claim C2 -/

/-- C2 counterexample: one connected service that is already enabled before
the bracketed run, and a guarded block that changes nothing.  The entry
phase enables nothing (empty enable trace), yet the exit phase disables the
service — so the set of services disabled on exit is not the set enabled on
entry, refuting the claim that the controller replays the inverse of its
snapshotted pre-state. -/
theorem C2_counterexample :
    enabledServices (wrap_proxy 8080 ["Wi-Fi"] (fun σ => (σ, none))
        (fun _ => ⟨⟨true, "127.0.0.1", 8080⟩, ⟨true, "127.0.0.1", 8080⟩⟩)).entryTrace = []
    ∧ disabledServices (wrap_proxy 8080 ["Wi-Fi"] (fun σ => (σ, none))
        (fun _ => ⟨⟨true, "127.0.0.1", 8080⟩, ⟨true, "127.0.0.1", 8080⟩⟩)).exitTrace
      = ["Wi-Fi"] :=
  ⟨rfl, rfl⟩

/-- C2 (amended): the exit phase of a bracketed run disables exactly the
connected services whose web proxy is currently enabled when the exit phase
runs (state re-queried after the guarded block, here an arbitrary external
transformation `g`), not the set the entry phase enabled. -/
theorem C2_exit_disables_currently_enabled (port : Nat) (connected : List String)
    (g : OSState → OSState) (σ : OSState) (s : String) :
    Cmd.setwebproxystate s ∈ (wrap_proxy port connected (fun τ => (g τ, none)) σ).exitTrace
      ↔ (s ∈ connected ∧ ((g (entryPhase port connected σ).1) s).web.enabled = true) := by
  exact exitPhase_trace connected (g (entryPhase port connected σ).1) s

/-! ### Claim C3 -/

/-- C3 counterexample: one connected service initially enabled with a
foreign target (`proxy.example:3128`).  Two bracketed runs (benign guarded
blocks, no external changes) leave the service disabled, so the state before
the first call is not restored. -/
theorem C3_counterexample :
    ((wrap_proxy 8080 ["Wi-Fi"] (fun τ => (τ, none))
        ((wrap_proxy 8080 ["Wi-Fi"] (fun τ => (τ, none))
          (fun _ => ⟨⟨true, "proxy.example", 3128⟩, ⟨true, "proxy.example", 3128⟩⟩)).finalState)).finalState
        "Wi-Fi")
      ≠ ((fun _ => ⟨⟨true, "proxy.example", 3128⟩, ⟨true, "proxy.example", 3128⟩⟩ : OSState)
        "Wi-Fi") := by
  decide

/-- A service record with both proxies off and the wrapper's own target
(`127.0.0.1`, the configured port) left behind. -/
def disabledTarget (port : Nat) : SvcProxyState :=
  ⟨⟨false, "127.0.0.1", port⟩, ⟨false, "127.0.0.1", port⟩⟩

/-- One benign bracketed run restores the state exactly when every connected
service starts disabled with the wrapper's own target host and port. -/
theorem wrap_benign_restores (port : Nat) (connected : List String) (σ : OSState)
    (h : ∀ s ∈ connected, σ s = disabledTarget port) :
    (wrap_proxy port connected (fun τ => (τ, none)) σ).finalState = σ := by
  funext s
  have hw : (wrap_proxy port connected (fun τ => (τ, none)) σ).finalState
      = (exitPhase connected (entryPhase port connected σ).1).1 := rfl
  rw [hw, exitPhase_state, entryPhase_state]
  by_cases hm : s ∈ connected
  · have hσ := h s hm
    rw [hσ]
    simp [hm, disabledTarget, proxyTarget, svcDisable]
  · simp [hm]

/-- C3 (amended): two sequential bracketed runs with benign guarded blocks
restore the initial OS proxy state provided every connected service
initially has its proxy disabled with target `127.0.0.1` and the configured
port.  (In general each run leaves every connected service disabled with the
wrapper's target, so an initial state with an enabled service or a foreign
target is not restored — see the counterexample.) -/
theorem C3_double_wrap_restores (port : Nat) (connected : List String) (σ : OSState)
    (h : ∀ s ∈ connected, σ s = disabledTarget port) :
    (wrap_proxy port connected (fun τ => (τ, none))
        (wrap_proxy port connected (fun τ => (τ, none)) σ).finalState).finalState = σ := by
  rw [wrap_benign_restores port connected σ h, wrap_benign_restores port connected σ h]

/-- Witness for C3 (amended) at a concrete initial state. -/
theorem C3_double_wrap_restores_witness :
    (∀ s ∈ (["Wi-Fi"] : List String),
        (fun _ => disabledTarget 8080 : OSState) s = disabledTarget 8080)
    ∧ (wrap_proxy 8080 ["Wi-Fi"] (fun τ => (τ, none))
        (wrap_proxy 8080 ["Wi-Fi"] (fun τ => (τ, none))
          (fun _ => disabledTarget 8080)).finalState).finalState
      = (fun _ => disabledTarget 8080 : OSState) :=
  ⟨fun _ _ => rfl, C3_double_wrap_restores 8080 ["Wi-Fi"] _ (fun _ _ => rfl)⟩

/-! ### Claim C4 -/

/-- C4 counterexample: primary service disabled, but a second connected
service already enabled with a foreign target.  `toggle_proxy` leaves the
already-enabled service untouched (read-before-write), so its target host
stays `proxy.example`, not `127.0.0.1` as the claim requires. -/
theorem C4_counterexample :
    ((fun n => if n = "Ethernet" then
          SvcProxyState.mk ⟨true, "proxy.example", 9⟩ ⟨true, "proxy.example", 9⟩
        else SvcProxyState.mk ⟨false, "", 0⟩ ⟨false, "", 0⟩ : OSState) "Wi-Fi").web.enabled
      = false
    ∧ ((toggle_proxy 8080 ["Wi-Fi", "Ethernet"] "Wi-Fi"
        (fun n => if n = "Ethernet" then
            SvcProxyState.mk ⟨true, "proxy.example", 9⟩ ⟨true, "proxy.example", 9⟩
          else SvcProxyState.mk ⟨false, "", 0⟩ ⟨false, "", 0⟩)).1 "Ethernet").web.host
      = "proxy.example"
    ∧ "proxy.example" ≠ "127.0.0.1" := by
  refine ⟨by decide, by decide, by decide⟩

/-- C4 (amended): if the primary service's web proxy is enabled, `Toggle`
leaves every connected service's web proxy disabled.  If it is disabled,
every connected service ends up web-proxy enabled, where a service that was
disabled gets the target `127.0.0.1` with the configured port, while a
service that was already enabled keeps its existing web-proxy record
unchanged (it is not re-pointed at the wrapper). -/
theorem C4_toggle_amended (port : Nat) (connected : List String) (primary : String)
    (σ : OSState) (s : String) (hs : s ∈ connected) :
    ((σ primary).web.enabled = true →
      ((toggle_proxy port connected primary σ).1 s).web.enabled = false)
    ∧ ((σ primary).web.enabled = false →
        ((toggle_proxy port connected primary σ).1 s).web.enabled = true
        ∧ ((σ s).web.enabled = false →
            ((toggle_proxy port connected primary σ).1 s).web = proxyTarget port)
        ∧ ((σ s).web.enabled = true →
            ((toggle_proxy port connected primary σ).1 s).web = (σ s).web)) := by
  have ht : toggle_proxy port connected primary σ
      = toggleLoop port (!(σ primary).web.enabled) connected σ := rfl
  constructor
  · intro hp
    rw [ht, hp]
    rw [toggleLoop_state]
    by_cases he : (σ s).web.enabled = true
    · simp [hs, he, svcDisable]
    · have he' : (σ s).web.enabled = false := by simpa using he
      simp [hs, he']
  · intro hp
    rw [ht, hp]
    rw [toggleLoop_state]
    by_cases he : (σ s).web.enabled = true
    · simp [hs, he]
    · have he' : (σ s).web.enabled = false := by simpa using he
      simp [hs, he', proxyTarget]

/-- Witness for C4 (amended): primary enabled, one connected service; after
`Toggle` it is disabled. -/
theorem C4_toggle_amended_witness :
    ("Wi-Fi" ∈ (["Wi-Fi"] : List String))
    ∧ (((fun _ => SvcProxyState.mk ⟨true, "h", 1⟩ ⟨true, "h", 1⟩ : OSState) "Wi-Fi").web.enabled
        = true)
    ∧ ((toggle_proxy 8080 ["Wi-Fi"] "Wi-Fi"
        (fun _ => SvcProxyState.mk ⟨true, "h", 1⟩ ⟨true, "h", 1⟩)).1 "Wi-Fi").web.enabled
      = false :=
  ⟨by decide, rfl,
    (C4_toggle_amended 8080 ["Wi-Fi"] "Wi-Fi"
      (fun _ => SvcProxyState.mk ⟨true, "h", 1⟩ ⟨true, "h", 1⟩) "Wi-Fi" (by decide)).1 rfl⟩

/-! ### Claim C5 -/

/-- C5 counterexample: an executor on which `-setwebproxy` fails.  The
enable operation stops at the first command — `subprocess.check_output`
raises — so the secure variant is never attempted, refuting the claim that
both commands are attempted even if the first fails. -/
theorem C5_counterexample :
    (enable_proxy_attempt
        (fun c => match c with | Cmd.setwebproxy _ _ _ => false | _ => true)
        8080 "Wi-Fi").2 = false
    ∧ Cmd.setsecurewebproxy "Wi-Fi" "127.0.0.1" 8080 ∉
        (enable_proxy_attempt
          (fun c => match c with | Cmd.setwebproxy _ _ _ => false | _ => true)
          8080 "Wi-Fi").1 := by
  decide

/-- C5 (amended): the plain and secure variant commands are issued
sequentially with no error aggregation: the secure variant is attempted if
and only if the plain variant succeeded (a failure of the first aborts the
operation immediately and the second command is never issued), for both the
enable and the disable operation. -/
theorem C5_second_variant_iff_first_succeeds (exec : Cmd → Bool) (port : Nat) (s : String) :
    (Cmd.setsecurewebproxy s "127.0.0.1" port ∈ (enable_proxy_attempt exec port s).1
      ↔ exec (Cmd.setwebproxy s "127.0.0.1" port) = true)
    ∧ (Cmd.setsecurewebproxystate s ∈ (disable_proxy_attempt exec s).1
      ↔ exec (Cmd.setwebproxystate s) = true) := by
  constructor
  · cases h1 : exec (Cmd.setwebproxy s "127.0.0.1" port) with
    | false => simp [enable_proxy_attempt, enableCmdSequence, runCmds, h1]
    | true =>
      cases h2 : exec (Cmd.setsecurewebproxy s "127.0.0.1" port) with
      | false => simp [enable_proxy_attempt, enableCmdSequence, runCmds, h1, h2]
      | true => simp [enable_proxy_attempt, enableCmdSequence, runCmds, h1, h2]
  · cases h1 : exec (Cmd.setwebproxystate s) with
    | false => simp [disable_proxy_attempt, disableCmdSequence, runCmds, h1]
    | true =>
      cases h2 : exec (Cmd.setsecurewebproxystate s) with
      | false => simp [disable_proxy_attempt, disableCmdSequence, runCmds, h1, h2]
      | true => simp [disable_proxy_attempt, disableCmdSequence, runCmds, h1, h2]

/-! ### Claim C6 -/

/-- C6: if the service-state output parses into a key/value mapping that has
no `Enabled` key, reading the service's enablement fails (Python
`KeyError`, the hard parse failure) rather than defaulting to `false`. -/
theorem C6_missing_enabled_is_error (output : List (List Char))
    (kvs : List (List Char × List Char))
    (h1 : proxy_state_for_service output = Except.ok kvs)
    (h2 : dictLookup kvs ("Enabled".toList) = none) :
    proxy_enabled_for_service output = Except.error PErr.keyError := by
  simp only [proxy_enabled_for_service, h1, h2]

/-- Witness for C6 at a concrete query output without an `Enabled` line. -/
theorem C6_missing_enabled_is_error_witness :
    proxy_state_for_service ["Server: 127.0.0.1".toList, "Port: 8080".toList]
      = Except.ok [("Server".toList, "127.0.0.1".toList), ("Port".toList, "8080".toList)]
    ∧ dictLookup [("Server".toList, "127.0.0.1".toList), ("Port".toList, "8080".toList)]
        ("Enabled".toList) = none
    ∧ proxy_enabled_for_service ["Server: 127.0.0.1".toList, "Port: 8080".toList]
      = Except.error PErr.keyError :=
  ⟨rfl, rfl,
    C6_missing_enabled_is_error ["Server: 127.0.0.1".toList, "Port: 8080".toList]
      [("Server".toList, "127.0.0.1".toList), ("Port".toList, "8080".toList)] rfl rfl⟩

/-! ### Claim C7 -/

/-- C7 counterexample: an output whose first line parses (and carries the
`Enabled` key) but whose second line does not match the colon-delimited
shape.  Parsing raises (Python `IndexError` from `re.findall(...)[0]`)
instead of ignoring the malformed line, refuting the claim that
non-matching lines do not cause an error. -/
theorem C7_counterexample :
    findKeyValue ("Enabled: Yes".toList) = some ("Enabled".toList, "Yes".toList)
    ∧ proxy_enabled_for_service ["Enabled: Yes".toList, "bogus".toList]
      = Except.error PErr.indexError :=
  ⟨rfl, rfl⟩

/-- If every line of the output matches the key/value regex, parsing
succeeds. -/
theorem proxy_state_ok_of_matches (output : List (List Char)) :
    (∀ line ∈ output, (findKeyValue line).isSome = true) →
    ∃ kvs, proxy_state_for_service output = Except.ok kvs := by
  induction output with
  | nil => exact fun _ => ⟨[], rfl⟩
  | cons line rest ih =>
    intro h
    obtain ⟨kv, hkv⟩ := Option.isSome_iff_exists.mp (h line (List.mem_cons_self _ _))
    obtain ⟨kvs, hkvs⟩ := ih (fun l hl => h l (List.mem_cons_of_mem _ hl))
    exact ⟨kv :: kvs, by simp [proxy_state_for_service, hkv, hkvs]⟩

/-- C7 (amended): unrecognized keys are ignored — if every line matches the
colon-delimited key/value shape, parsing succeeds whatever keys appear, and
if the `Enabled` key is among them the enablement read succeeds.  (But a
line that does not match the shape is an error, not ignored — see the
counterexample.) -/
theorem C7_wellformed_lines_tolerated (output : List (List Char))
    (h : ∀ line ∈ output, (findKeyValue line).isSome = true) :
    ∃ kvs, proxy_state_for_service output = Except.ok kvs
      ∧ ((dictLookup kvs ("Enabled".toList)).isSome = true
          → ∃ b, proxy_enabled_for_service output = Except.ok b) := by
  obtain ⟨kvs, hkvs⟩ := proxy_state_ok_of_matches output h
  refine ⟨kvs, hkvs, ?_⟩
  intro hl
  obtain ⟨v, hv⟩ := Option.isSome_iff_exists.mp hl
  exact ⟨v == "Yes".toList, by simp only [proxy_enabled_for_service, hkvs, hv]⟩

/-- Witness for C7 (amended) at a concrete output with an unrecognized
key. -/
theorem C7_wellformed_lines_tolerated_witness :
    (∀ line ∈ [("Enabled: No".toList), ("Bogus: 1".toList)], (findKeyValue line).isSome = true)
    ∧ ∃ kvs, proxy_state_for_service [("Enabled: No".toList), ("Bogus: 1".toList)]
        = Except.ok kvs
      ∧ ((dictLookup kvs ("Enabled".toList)).isSome = true
          → ∃ b, proxy_enabled_for_service [("Enabled: No".toList), ("Bogus: 1".toList)]
              = Except.ok b) :=
  ⟨by decide, C7_wellformed_lines_tolerated _ (by decide)⟩

/-! ### Claim C8 -/

/-- C8 counterexample: one service id whose setup record yields no
`UserDefinedName` match (present in the connected listing, absent from the
name listing).  The join fails with `ValueError` (tuple unpacking of an
empty match list) instead of skipping the service and returning the empty
list of resolvable names. -/
theorem C8_counterexample :
    connected_service_names ["s1"] (fun _ => []) = Except.error JoinErr.valueError
    ∧ connected_service_names ["s1"] (fun _ => []) ≠ Except.ok [] := by
  refine ⟨rfl, ?_⟩
  intro h
  rw [show connected_service_names ["s1"] (fun _ => []) = Except.error JoinErr.valueError
    from rfl] at h
  exact Except.noConfusion h

/-- C8 (amended): a service present in the connected-service listing whose
name cannot be resolved from the name listing makes the whole enumeration
fail with `ValueError`; it is not skipped. -/
theorem C8_unresolvable_service_errors (ids : List String) (f : String → List String)
    (id : String) (h2 : f id = []) :
    id ∈ ids → connected_service_names ids f = Except.error JoinErr.valueError := by
  induction ids with
  | nil => intro h1; cases h1
  | cons a rest ih =>
    intro h1
    rcases List.mem_cons.mp h1 with h | h
    · subst h
      simp [connected_service_names, h2, unpackSingleMatch]
    · cases hu : unpackSingleMatch (f a) with
      | error e =>
        cases e
        simp [connected_service_names, hu]
      | ok name =>
        simp [connected_service_names, hu, ih h]

/-- Witness for C8 (amended): two connected ids, the second unresolvable. -/
theorem C8_unresolvable_service_errors_witness :
    ((fun i => if i = "good" then ["Ethernet"] else []) "bad" = ([] : List String))
    ∧ ("bad" ∈ ["good", "bad"])
    ∧ connected_service_names ["good", "bad"]
        (fun i => if i = "good" then ["Ethernet"] else [])
      = Except.error JoinErr.valueError :=
  ⟨rfl, by decide,
    C8_unresolvable_service_errors ["good", "bad"]
      (fun i => if i = "good" then ["Ethernet"] else []) "bad" rfl (by decide)⟩

/-! ### Claim C9 -/

/-- C9: `Toggle` issues a proxy-mutation command for a service if and only
if that service is connected and its current web-proxy enablement disagrees
with the target state (the negation of the primary service's enablement);
services already in the target state receive no command. -/
theorem C9_toggle_read_before_write (port : Nat) (connected : List String)
    (primary : String) (σ : OSState) (s : String) :
    (∃ c ∈ (toggle_proxy port connected primary σ).2, cmdService c = s)
      ↔ (s ∈ connected ∧ ¬((σ s).web.enabled = !(σ primary).web.enabled)) :=
  toggleLoop_trace port (!(σ primary).web.enabled) connected σ s

/-! ### Claim C10 -/

/-- C10: a service counts as proxy-enabled exactly when the parsed `Enabled`
value is the literal string `Yes`; any other value yields `ok false`
(treated as disabled), never a parse error. -/
theorem C10_enabled_iff_exact_yes (output : List (List Char))
    (kvs : List (List Char × List Char)) (v : List Char)
    (h1 : proxy_state_for_service output = Except.ok kvs)
    (h2 : dictLookup kvs ("Enabled".toList) = some v) :
    proxy_enabled_for_service output = Except.ok (v == "Yes".toList)
    ∧ (proxy_enabled_for_service output = Except.ok true ↔ v = "Yes".toList) := by
  have hmain : proxy_enabled_for_service output = Except.ok (v == "Yes".toList) := by
    simp only [proxy_enabled_for_service, h1, h2]
  refine ⟨hmain, ?_⟩
  rw [hmain]
  constructor
  · intro h
    have hb : (v == "Yes".toList) = true := by injection h
    exact eq_of_beq hb
  · intro h
    subst h
    simp

/-- Witness for C10: the value `1` is treated as disabled, not as an
error. -/
theorem C10_enabled_iff_exact_yes_witness :
    proxy_state_for_service ["Enabled: 1".toList] = Except.ok [("Enabled".toList, "1".toList)]
    ∧ dictLookup [("Enabled".toList, "1".toList)] ("Enabled".toList) = some ("1".toList)
    ∧ proxy_enabled_for_service ["Enabled: 1".toList] = Except.ok false :=
  ⟨rfl, rfl,
    ((C10_enabled_iff_exact_yes ["Enabled: 1".toList]
      [("Enabled".toList, "1".toList)] ("1".toList) rfl rfl).1).trans rfl⟩


end MitmWrapper
